import Mathlib

/-!
# core/config/config_provider.go

A shallow embedding of the configuration-provider interface, its prefix
decorator `ScopedProvider` and the `keyNotFound` error constructor.

Conventions of the embedding

* A Go `string` is a Lean `String`.  `fmt.Sprintf("%s.%s", a, b)` copies both
  operands verbatim around one dot, which is `a ++ "." ++ b`.
* A Go `string` may also hold bytes that are not UTF-8, which the verb `%q`
  treats on their own.  Where that matters (`keyNotFoundBytes`) a key is the
  list of its bytes, each a `Nat` below 256, and a conversion `byte(x)` is
  `x % 256`; `utf8Bytes` gives the bytes of a Lean `String`.
* A method call on a provider may touch state owned by the concrete backend
  (watchers, caches).  That state is an explicit world `σ` threaded through
  every call: a method maps a world to `some (result, world)`, or to `none`
  when the call panics (a method invoked on a nil interface value).
* `ConfigurationValue` is declared elsewhere in the package; it is the type
  parameter `V`.  The `interface{}` payload of a change callback is `D`.
-/

namespace config

/-! ## Errors and `fmt.Errorf("couldn't find key %q", key)` -/

/-- The concrete error built by `fmt.Errorf` when the format has no `%w`
verb: a value carrying only its message. -/
structure errorString where
  s : String
deriving DecidableEq, Repr

/-- Go's `error` interface as far as this file produces it: `none` is the nil
error. -/
abbrev error := Option errorString

/-- The method `Error()` of an error value. -/
def errorString.Error (e : errorString) : String := e.s

/-- The digit table `lowerhex` of package strconv, indexed by a nibble. -/
def lowerhex (n : Nat) : Char :=
  "0123456789abcdef".data.getD (n % 16) '0'

/-- The function `strconv.IsPrint`.  Its Latin-1 fast path is spelled out; for
runes above U+00FF the Go library consults generated Unicode tables, which
are the parameter `wide`. -/
def IsPrint (wide : Char → Bool) (r : Char) : Bool :=
  if r.toNat ≤ 0xFF then
    if 0x20 ≤ r.toNat ∧ r.toNat ≤ 0x7E then true
    else if 0xA1 ≤ r.toNat ∧ r.toNat ≤ 0xFF then r.toNat != 0xAD
    else false
  else wide r

/-- The function `utf8.ValidRune` on a code point. -/
def ValidRune (r : Nat) : Bool :=
  if r < 0xD800 then true
  else if 0xDFFF < r ∧ r ≤ 0x10FFFF then true
  else false

/-- Hexadecimal digits of `r`, most significant first, for the shifts
`s, s - 4, ..., 0` where `s = 4 * (n - 1)`: the loops
`for s := 12; s >= 0; s -= 4` and `for s := 28; s >= 0; s -= 4`. -/
def hexDigits (r : Nat) : Nat → List Char
  | 0 => []
  | n + 1 => lowerhex (r / 2 ^ (4 * n) % 16) :: hexDigits r n

/-- The function `strconv.appendEscapedRune` with `quote = '"'`,
`ASCIIonly = false` and `graphicOnly = false`, the arguments `strconv.Quote`
passes, which is what the verb `%q` without flags formats a string with
(the rune U+007F is written `\\x7f`, as current Go releases do). -/
def appendEscapedRune (wide : Char → Bool) (buf : String) (r : Char) : String :=
  if r = '"' ∨ r = '\\' then (buf.push '\\').push r
  else if IsPrint wide r then buf.push r
  else if r.toNat = 7 then buf ++ "\\a"
  else if r.toNat = 8 then buf ++ "\\b"
  else if r.toNat = 12 then buf ++ "\\f"
  else if r = '\n' then buf ++ "\\n"
  else if r = '\r' then buf ++ "\\r"
  else if r = '\t' then buf ++ "\\t"
  else if r.toNat = 11 then buf ++ "\\v"
  else if r.toNat < 0x20 ∨ r.toNat = 0x7F then
    buf ++ "\\x" ++ String.mk [lowerhex (r.toNat / 16), lowerhex (r.toNat % 16)]
  else if !ValidRune r.toNat then buf ++ "\\u" ++ String.mk (hexDigits 0xFFFD 4)
  else if r.toNat < 0x10000 then buf ++ "\\u" ++ String.mk (hexDigits r.toNat 4)
  else buf ++ "\\U" ++ String.mk (hexDigits r.toNat 8)

/-- The function `strconv.Quote` on a string that is valid UTF-8, held as a
Lean `String`: an opening quote, every rune of `s` through `appendEscapedRune`
from left to right, a closing quote.  The branch for an undecodable byte is
not entered on such a string; `appendQuotedWith` below is the function on
arbitrary bytes, and `appendQuotedWith_utf8Bytes` shows the two agree. -/
def Quote (wide : Char → Bool) (s : String) : String :=
  (s.data.foldl (appendEscapedRune wide) "\"").push '"'

/-- Source lines 43-45, `return fmt.Errorf("couldn't find key %q", key)`, on
a key that is valid UTF-8, held as a Lean `String`; `keyNotFoundBytes` below
takes any key. -/
def keyNotFound (wide : Char → Bool) (key : String) : error :=
  some ⟨"couldn't find key " ++ Quote wide key⟩

/-! ## `%q` on a key given by its bytes -/

/-- The constant `utf8.RuneError`. -/
def RuneError : Nat := 0xFFFD

/-- The table `utf8.first`, by ranges of the first byte: `0xF0` (`as`) for
ASCII, `0xF1` (`xx`) for a byte that starts no sequence, otherwise the size of
the sequence in the low bits and the index into `acceptRanges` in the high
nibble. -/
def first (b : Nat) : Nat :=
  if b < 0x80 then 0xF0
  else if b < 0xC2 then 0xF1
  else if b < 0xE0 then 0x02
  else if b = 0xE0 then 0x13
  else if b < 0xED then 0x03
  else if b = 0xED then 0x23
  else if b < 0xF0 then 0x03
  else if b = 0xF0 then 0x34
  else if b < 0xF4 then 0x04
  else if b = 0xF4 then 0x44
  else 0xF1

/-- The table `utf8.acceptRanges`: the bounds `lo`, `hi` of the second byte. -/
def acceptRanges (i : Nat) : Nat × Nat :=
  if i = 0 then (0x80, 0xBF)
  else if i = 1 then (0xA0, 0xBF)
  else if i = 2 then (0x80, 0x9F)
  else if i = 3 then (0x90, 0xBF)
  else if i = 4 then (0x80, 0x8F)
  else (0, 0)

/-- The function `utf8.DecodeRuneInString`: the rune at the front of `s` and
its width in bytes; `(RuneError, 1)` for a byte that starts no valid
sequence.  For `first[s0] >= as` the Go code picks `s0` or `RuneError` with a
mask made of the low bit of the table entry. -/
def DecodeRuneInString (s : List Nat) : Nat × Nat :=
  match s with
  | [] => (RuneError, 0)
  | s0 :: t =>
    let x := first s0
    if 0xF0 ≤ x then (if x % 2 = 1 then RuneError else s0, 1)
    else
      let sz := x &&& 7
      let accept := acceptRanges (x >>> 4)
      if (s0 :: t).length < sz then (RuneError, 1)
      else
        match t with
        | [] => (RuneError, 1)
        | s1 :: t1 =>
          if s1 < accept.1 ∨ accept.2 < s1 then (RuneError, 1)
          else if sz ≤ 2 then ((s0 &&& 0x1F) <<< 6 ||| (s1 &&& 0x3F), 2)
          else
            match t1 with
            | [] => (RuneError, 1)
            | s2 :: t2 =>
              if s2 < 0x80 ∨ 0xBF < s2 then (RuneError, 1)
              else if sz ≤ 3 then
                ((s0 &&& 0x0F) <<< 12 ||| (s1 &&& 0x3F) <<< 6 ||| (s2 &&& 0x3F), 3)
              else
                match t2 with
                | [] => (RuneError, 1)
                | s3 :: _ =>
                  if s3 < 0x80 ∨ 0xBF < s3 then (RuneError, 1)
                  else
                    ((s0 &&& 0x07) <<< 18 ||| (s1 &&& 0x3F) <<< 12 |||
                      (s2 &&& 0x3F) <<< 6 ||| (s3 &&& 0x3F), 4)

/-- The bytes `utf8.AppendRune` appends for the rune `r`. -/
def EncodeRune (r : Nat) : List Nat :=
  if r ≤ 0x7F then [r % 256]
  else if r ≤ 0x7FF then [0xC0 ||| (r >>> 6) % 256, 0x80 ||| (r % 256 &&& 0x3F)]
  else if 0x10FFFF < r ∨ (0xD800 ≤ r ∧ r ≤ 0xDFFF) then [0xEF, 0xBF, 0xBD]
  else if r ≤ 0xFFFF then
    [0xE0 ||| (r >>> 12) % 256, 0x80 ||| ((r >>> 6) % 256 &&& 0x3F), 0x80 ||| (r % 256 &&& 0x3F)]
  else
    [0xF0 ||| (r >>> 18) % 256, 0x80 ||| ((r >>> 12) % 256 &&& 0x3F),
      0x80 ||| ((r >>> 6) % 256 &&& 0x3F), 0x80 ||| (r % 256 &&& 0x3F)]

/-- The bytes of a list of runes, each encoded by `EncodeRune`. -/
def utf8BytesOf : List Char → List Nat
  | [] => []
  | c :: cs => EncodeRune c.toNat ++ utf8BytesOf cs

/-- The bytes of a valid UTF-8 string: the Go conversion `[]byte(s)`. -/
def utf8Bytes (s : String) : List Nat := utf8BytesOf s.data

/-- The call `appendEscapedRune(buf, r, ...)` on a rune given by its code
point.  A rune that is not valid is no quote, no backslash, not printable and
no control character, and Go writes it as the escape of U+FFFD. -/
def appendEscapedRuneAt (wide : Char → Bool) (buf : String) (r : Nat) : String :=
  if ValidRune r then appendEscapedRune wide buf (Char.ofNat r)
  else buf ++ "\\u" ++ String.mk (hexDigits 0xFFFD 4)

/-- The loop of `strconv.appendQuotedWith`,
`for width := 0; len(s) > 0; s = s[width:]`, over the bytes still to read.
`skip` counts the bytes of the current rune not yet passed, so that the loop
goes on at `s[width:]`.  A byte below `utf8.RuneSelf` is its own rune; a byte
for which the decoder answers `RuneError` with width 1 is written as `\x`
and two hexadecimal digits.  The buffer only ever receives valid UTF-8 and is
a Lean `String`. -/
def quoteLoop (wide : Char → Bool) : List Nat → Nat → String → String
  | [], _, buf => buf
  | _ :: t, skip + 1, buf => quoteLoop wide t skip buf
  | s0 :: t, 0, buf =>
    let decoded := if 0x80 ≤ s0 then DecodeRuneInString (s0 :: t) else (s0, 1)
    if decoded.2 = 1 ∧ decoded.1 = RuneError then
      quoteLoop wide t 0
        (buf ++ "\\x" ++ String.mk [lowerhex (s0 >>> 4), lowerhex (s0 &&& 0xF)])
    else
      quoteLoop wide t (decoded.2 - 1) (appendEscapedRuneAt wide buf decoded.1)

/-- The function `strconv.appendQuotedWith` with `quote = '"'`,
`ASCIIonly = false`, `graphicOnly = false`, started on an empty buffer: what
`strconv.Quote` returns and the verb `%q` prints for the key `s`. -/
def appendQuotedWith (wide : Char → Bool) (s : List Nat) : String :=
  (quoteLoop wide s 0 "\"").push '"'

/-- Source lines 43-45, `return fmt.Errorf("couldn't find key %q", key)`, on
a key given by its bytes. -/
def keyNotFoundBytes (wide : Char → Bool) (key : List Nat) : error :=
  some ⟨"couldn't find key " ++ appendQuotedWith wide key⟩

/-! ## Providers -/

/-- Source line 26: `func(key string, provider string, configdata interface{})`,
a function run for its effect on the world. -/
def ConfigurationChangeCallback (D σ : Type) : Type :=
  String → String → D → σ → σ

/-- Source lines 47-52: the struct `ScopedProvider`, an embedded
`ConfigurationProvider` and the field `prefix`. -/
structure ScopedProvider (P : Type) where
  ConfigurationProvider : P
  prefix_ : String

/-- A value of the interface type `ConfigurationProvider` (source lines
30-41): the nil interface, a concrete backend `b`, or a `ScopedProvider`.
The methods of `ScopedProvider` have value receivers and none assigns a
field, so a `*ScopedProvider` and a `ScopedProvider` are the same value
here. -/
inductive ConfigurationProvider (B : Type) where
  | nil : ConfigurationProvider B
  | concrete (b : B) : ConfigurationProvider B
  | scoped (sp : ScopedProvider (ConfigurationProvider B)) : ConfigurationProvider B

/-- The five interface methods as implemented by the concrete backends, which
live outside this file.  `B` identifies a backend, `σ` is the world. -/
structure Backend (B σ V D : Type) where
  Name : B → σ → Option (String × σ)
  GetValue : B → String → σ → Option (V × σ)
  Scope : B → String → σ → Option (ConfigurationProvider B × σ)
  RegisterChangeCallback :
    B → String → ConfigurationChangeCallback D σ → σ → Option (String × σ)
  UnregisterChangeCallback : B → String → σ → Option (Bool × σ)

/-- Source lines 54-57: `return &ScopedProvider{provider, prefix}`. -/
def NewScopedProvider {B : Type} (prefix_ : String)
    (provider : ConfigurationProvider B) : ConfigurationProvider B :=
  .scoped ⟨provider, prefix_⟩

/-- Source lines 67-70: `return NewScopedProvider(prefix, sp)`. -/
def ScopedProvider.Scope {B : Type}
    (sp : ScopedProvider (config.ConfigurationProvider B)) (prefix_ : String) :
    config.ConfigurationProvider B :=
  NewScopedProvider prefix_ (.scoped sp)

mutual
/-- Dynamic dispatch of `p.GetValue(key)` on an interface value. -/
def ConfigurationProvider.GetValue {B σ V D : Type} (M : Backend B σ V D) :
    ConfigurationProvider B → String → σ → Option (V × σ)
  | .nil, _, _ => none
  | .concrete b, key, w => M.GetValue b key w
  | .scoped sp, key, w => ScopedProvider.GetValue M sp key w
/-- Source lines 59-65: the key is rebound to `prefix + "." + key` when the
prefix is not empty, then the embedded provider is asked. -/
def ScopedProvider.GetValue {B σ V D : Type} (M : Backend B σ V D) :
    ScopedProvider (ConfigurationProvider B) → String → σ → Option (V × σ)
  | ⟨inner, prefix_⟩, key, w =>
    let key := if prefix_ ≠ "" then prefix_ ++ "." ++ key else key
    ConfigurationProvider.GetValue M inner key w
end

mutual
/-- Dynamic dispatch of `p.Name()`. -/
def ConfigurationProvider.Name {B σ V D : Type} (M : Backend B σ V D) :
    ConfigurationProvider B → σ → Option (String × σ)
  | .nil, _ => none
  | .concrete b, w => M.Name b w
  | .scoped sp, w => ScopedProvider.Name M sp w
/-- The method `Name` promoted from the embedded interface (source line 49). -/
def ScopedProvider.Name {B σ V D : Type} (M : Backend B σ V D) :
    ScopedProvider (ConfigurationProvider B) → σ → Option (String × σ)
  | ⟨inner, _⟩, w => ConfigurationProvider.Name M inner w
end

mutual
/-- Dynamic dispatch of `p.RegisterChangeCallback(key, callback)`. -/
def ConfigurationProvider.RegisterChangeCallback {B σ V D : Type}
    (M : Backend B σ V D) :
    ConfigurationProvider B → String → ConfigurationChangeCallback D σ → σ →
      Option (String × σ)
  | .nil, _, _, _ => none
  | .concrete b, key, callback, w => M.RegisterChangeCallback b key callback w
  | .scoped sp, key, callback, w =>
    ScopedProvider.RegisterChangeCallback M sp key callback w
/-- The method `RegisterChangeCallback` promoted from the embedded interface
(source line 49). -/
def ScopedProvider.RegisterChangeCallback {B σ V D : Type} (M : Backend B σ V D) :
    ScopedProvider (ConfigurationProvider B) → String →
      ConfigurationChangeCallback D σ → σ → Option (String × σ)
  | ⟨inner, _⟩, key, callback, w =>
    ConfigurationProvider.RegisterChangeCallback M inner key callback w
end

mutual
/-- Dynamic dispatch of `p.UnregisterChangeCallback(token)`. -/
def ConfigurationProvider.UnregisterChangeCallback {B σ V D : Type}
    (M : Backend B σ V D) :
    ConfigurationProvider B → String → σ → Option (Bool × σ)
  | .nil, _, _ => none
  | .concrete b, token, w => M.UnregisterChangeCallback b token w
  | .scoped sp, token, w => ScopedProvider.UnregisterChangeCallback M sp token w
/-- The method `UnregisterChangeCallback` promoted from the embedded interface
(source line 49). -/
def ScopedProvider.UnregisterChangeCallback {B σ V D : Type} (M : Backend B σ V D) :
    ScopedProvider (ConfigurationProvider B) → String → σ → Option (Bool × σ)
  | ⟨inner, _⟩, token, w =>
    ConfigurationProvider.UnregisterChangeCallback M inner token w
end

/-- Dynamic dispatch of `p.Scope(prefix)`: a `ScopedProvider` builds the new
value without calling anything, a backend runs its own method. -/
def ConfigurationProvider.Scope {B σ V D : Type} (M : Backend B σ V D) :
    ConfigurationProvider B → String → σ → Option (ConfigurationProvider B × σ)
  | .nil, _, _ => none
  | .concrete b, prefix_, w => M.Scope b prefix_ w
  | .scoped sp, prefix_, w => some (sp.Scope prefix_, w)

/-! ## A static backend used to evaluate the definitions on concrete inputs -/

/-- A lookup result of the static backend: the text found and the error. -/
structure DemoValue where
  value : String
  err : error
deriving DecidableEq, Repr

/-- The wide-rune table of the static backend: no rune above U+00FF counts as
printable. -/
def demoWide : Char → Bool := fun _ => false

/-- A static backend: a provider is a key/value table, a miss yields
`keyNotFound`, change callbacks are the no-op the interface comment allows.
The world counts the calls received. -/
def demo : Backend (List (String × String)) Nat DemoValue Unit where
  Name := fun _ w => some ("static", w + 1)
  GetValue := fun b key w =>
    match b.lookup key with
    | some v => some (⟨v, none⟩, w + 1)
    | none => some (⟨"", keyNotFound demoWide key⟩, w + 1)
  Scope := fun b p w => some (NewScopedProvider p (.concrete b), w + 1)
  RegisterChangeCallback := fun _ _ _ w => some ("", w + 1)
  UnregisterChangeCallback := fun _ _ w => some (false, w + 1)

/-- The table `db.creds.user = alice`, `creds.user = carol`, `user = bob`. -/
def demoTable : ConfigurationProvider (List (String × String)) :=
  .concrete [("db.creds.user", "alice"), ("creds.user", "carol"), ("user", "bob")]

/-! ## Chains of scopes and the receiver across a call -/

/-- Ways to reach `outer` from `inner` by wrapping, each layer made either by
`NewScopedProvider(p, q)` or by `Scope(p)` called on a `ScopedProvider`. -/
inductive BuiltOver {B : Type} (inner : ConfigurationProvider B) :
    ConfigurationProvider B → Prop where
  | base : BuiltOver inner inner
  | viaNew (p : String) {q : ConfigurationProvider B} :
      BuiltOver inner q → BuiltOver inner (NewScopedProvider p q)
  | viaScope (p : String) {sp : ScopedProvider (ConfigurationProvider B)} :
      BuiltOver inner (.scoped sp) → BuiltOver inner (sp.Scope p)

/-- A method of `ScopedProvider` together with its arguments. -/
inductive Method (D σ : Type) where
  | GetValue (key : String)
  | Scope (prefix_ : String)
  | Name
  | RegisterChangeCallback (key : String) (callback : ConfigurationChangeCallback D σ)
  | UnregisterChangeCallback (token : String)

/-- What a method of `ScopedProvider` hands back. -/
inductive Ret (B V : Type) where
  | value (v : V)
  | provider (p : ConfigurationProvider B)
  | name (s : String)
  | token (s : String)
  | removed (b : Bool)

/-- One method call with the receiver made explicit: the result, the
receiver as it stands when the body returns, and the world.  The bodies of
`GetValue` and `Scope` work on `sp`, a copy local to the call; the only
assignment in the file is `key = ...` in `GetValue` (source line 62).  The
three promoted methods run on the embedded provider. -/
def ScopedProvider.call {B σ V D : Type} (M : Backend B σ V D)
    (sp : ScopedProvider (config.ConfigurationProvider B)) :
    Method D σ → σ → Option (Ret B V × ScopedProvider (config.ConfigurationProvider B) × σ)
  | .GetValue key, w =>
    let key := if sp.prefix_ ≠ "" then sp.prefix_ ++ "." ++ key else key
    (sp.ConfigurationProvider.GetValue M key w).map fun r => (.value r.1, sp, r.2)
  | .Scope prefix_, w => some (.provider (NewScopedProvider prefix_ (.scoped sp)), sp, w)
  | .Name, w =>
    (sp.ConfigurationProvider.Name M w).map fun r => (.name r.1, sp, r.2)
  | .RegisterChangeCallback key callback, w =>
    (sp.ConfigurationProvider.RegisterChangeCallback M key callback w).map
      fun r => (.token r.1, sp, r.2)
  | .UnregisterChangeCallback token, w =>
    (sp.ConfigurationProvider.UnregisterChangeCallback M token w).map
      fun r => (.removed r.1, sp, r.2)

/-! ## A backend that keeps a log of the calls it receives -/

/-- One entry of the log: the method the backend `b` was asked to run and
its string argument. -/
inductive Received (B : Type) where
  | Name (b : B)
  | GetValue (b : B) (key : String)
  | Scope (b : B) (prefix_ : String)
  | RegisterChangeCallback (b : B) (key : String)
  | UnregisterChangeCallback (b : B) (token : String)
deriving DecidableEq, Repr

/-- What a logging backend answers, as a function of the call and of the log
so far. -/
structure Answers (B V : Type) where
  Name : B → List (Received B) → String
  GetValue : B → String → List (Received B) → V
  Scope : B → String → List (Received B) → ConfigurationProvider B
  RegisterChangeCallback : B → String → List (Received B) → String
  UnregisterChangeCallback : B → String → List (Received B) → Bool

/-- A backend whose world is the log of the calls received: every method
appends its own entry and answers as `A` says. -/
def recorder {B V D : Type} (A : Answers B V) : Backend B (List (Received B)) V D where
  Name := fun b log => some (A.Name b log, log ++ [.Name b])
  GetValue := fun b key log => some (A.GetValue b key log, log ++ [.GetValue b key])
  Scope := fun b p log => some (A.Scope b p log, log ++ [.Scope b p])
  RegisterChangeCallback := fun b key _ log =>
    some (A.RegisterChangeCallback b key log, log ++ [.RegisterChangeCallback b key])
  UnregisterChangeCallback := fun b token log =>
    some (A.UnregisterChangeCallback b token log, log ++ [.UnregisterChangeCallback b token])

/-- Answers for evaluating the logging backend: lookups echo the key. -/
def demoAnswers : Answers Unit String where
  Name := fun _ _ => "recorder"
  GetValue := fun _ key _ => key
  Scope := fun b p _ => NewScopedProvider p (.concrete b)
  RegisterChangeCallback := fun _ _ log => toString log.length
  UnregisterChangeCallback := fun _ _ _ => false

/-- A call of the package function `NewScopedProvider` in a world (source
lines 54-57): the body is one composite literal and a `return`; it runs no
method of `provider`, so the world comes back as it went in. -/
def NewScopedProvider.call {B σ : Type} (prefix_ : String)
    (provider : ConfigurationProvider B) (w : σ) : Option (ConfigurationProvider B × σ) :=
  some (NewScopedProvider prefix_ provider, w)

/-! ## Scopes applied one after another -/

/-- The provider reached from `inner` by `NewScopedProvider(p1, ...)`, then
`NewScopedProvider(p2, ...)`, and so on along the list: the head of the list
is the innermost scope, the last element the outermost. -/
def scopeAll {B : Type} (inner : ConfigurationProvider B) (prefixes : List String) :
    ConfigurationProvider B :=
  prefixes.foldl (fun provider p => NewScopedProvider p provider) inner

/-- The key of the general nesting law, written from its statement: the
non-empty prefixes in order, each followed by one dot, then the key. -/
def resolvedKey (prefixes : List String) (k : String) : String :=
  (prefixes.filter (fun p => p ≠ "")).foldr (fun p rest => p ++ "." ++ rest) k

/-! ## Unfolding lemmas -/

section
variable {B σ V D : Type} (M : Backend B σ V D)

theorem scoped_GetValue (sp : ScopedProvider (ConfigurationProvider B)) (key : String)
    (w : σ) :
    (ConfigurationProvider.scoped sp).GetValue M key w = ScopedProvider.GetValue M sp key w := by
  rw [ConfigurationProvider.GetValue]

theorem ScopedProvider_GetValue_eq (sp : ScopedProvider (ConfigurationProvider B))
    (key : String) (w : σ) :
    ScopedProvider.GetValue M sp key w =
      sp.ConfigurationProvider.GetValue M
        (if sp.prefix_ ≠ "" then sp.prefix_ ++ "." ++ key else key) w := by
  cases sp
  rw [ScopedProvider.GetValue]

theorem NewScopedProvider_GetValue (p k : String) (inner : ConfigurationProvider B)
    (w : σ) :
    (NewScopedProvider p inner).GetValue M k w =
      inner.GetValue M (if p ≠ "" then p ++ "." ++ k else k) w := by
  rw [NewScopedProvider, scoped_GetValue, ScopedProvider_GetValue_eq]

theorem scoped_Name (sp : ScopedProvider (ConfigurationProvider B)) (w : σ) :
    (ConfigurationProvider.scoped sp).Name M w = sp.ConfigurationProvider.Name M w := by
  cases sp
  rw [ConfigurationProvider.Name, ScopedProvider.Name]

end

/-! ## Key transformation of `GetValue` -/

section
variable {B σ V D : Type} (M : Backend B σ V D)

/-- C1: with a non-empty prefix `p`, `NewScopedProvider(p, inner).GetValue(k)`
is exactly `inner.GetValue(p + "." + k)`: same value, same world, same panic. -/
theorem C1_GetValue_nonempty_prefix (p k : String) (inner : ConfigurationProvider B)
    (w : σ) (hp : p ≠ "") :
    (NewScopedProvider p inner).GetValue M k w = inner.GetValue M (p ++ "." ++ k) w := by
  rw [NewScopedProvider, scoped_GetValue, ScopedProvider_GetValue_eq]
  simp [hp]

theorem C1_GetValue_nonempty_prefix_witness :
    "db" ≠ "" ∧
      (NewScopedProvider "db" demoTable).GetValue demo "creds.user" 0 =
        demoTable.GetValue demo ("db" ++ "." ++ "creds.user") 0 :=
  ⟨by decide, C1_GetValue_nonempty_prefix demo "db" "creds.user" demoTable 0 (by decide)⟩

/-- C2: with the empty prefix, `NewScopedProvider("", inner).GetValue(k)` is
exactly `inner.GetValue(k)`; no dot is put in front of the key. -/
theorem C2_GetValue_empty_prefix (k : String) (inner : ConfigurationProvider B) (w : σ) :
    (NewScopedProvider "" inner).GetValue M k w = inner.GetValue M k w := by
  rw [NewScopedProvider, scoped_GetValue, ScopedProvider_GetValue_eq]
  simp

/-- C3, as stated, fails when a prefix is empty: under the scopes `""` then
`"creds"` the key `"user"` is looked up as `"creds.user"` (found: `carol`),
not as `".creds.user"` (a miss). -/
theorem C3_counterexample :
    (NewScopedProvider "creds" (NewScopedProvider "" demoTable)).GetValue demo "user" 0
        = some (⟨"carol", none⟩, 1) ∧
      ¬ ((NewScopedProvider "creds" (NewScopedProvider "" demoTable)).GetValue demo "user" 0
        = demoTable.GetValue demo ("" ++ "." ++ "creds" ++ "." ++ "user") 0) := by
  constructor
  · rfl
  · decide

/-- C3 (amended): for non-empty prefixes `p1` and `p2`, the scope `p2` over the
scope `p1` over `inner` looks `k` up as `p1 + "." + p2 + "." + k`. -/
theorem C3_nesting (p1 p2 k : String) (inner : ConfigurationProvider B) (w : σ)
    (h1 : p1 ≠ "") (h2 : p2 ≠ "") :
    (NewScopedProvider p2 (NewScopedProvider p1 inner)).GetValue M k w =
      inner.GetValue M (p1 ++ "." ++ p2 ++ "." ++ k) w := by
  rw [NewScopedProvider, NewScopedProvider, scoped_GetValue, ScopedProvider_GetValue_eq,
    scoped_GetValue, ScopedProvider_GetValue_eq]
  simp [h1, h2, String.append_assoc]

theorem C3_nesting_witness :
    "db" ≠ "" ∧ "creds" ≠ "" ∧
      (NewScopedProvider "creds" (NewScopedProvider "db" demoTable)).GetValue demo "user" 0 =
        demoTable.GetValue demo ("db" ++ "." ++ "creds" ++ "." ++ "user") 0 :=
  ⟨by decide, by decide,
    C3_nesting demo "db" "creds" "user" demoTable 0 (by decide) (by decide)⟩

end

/-! ## Promoted methods -/

section
variable {B σ V D : Type} (M : Backend B σ V D)

/-- C4: whatever its prefix, a `ScopedProvider` forwards
`RegisterChangeCallback(key, cb)` to the wrapped provider with the same key
and callback, and `UnregisterChangeCallback(token)` with the same token; the
token, the boolean and the world come back as the wrapped provider made
them.  The same holds through the interface value. -/
theorem C4_callbacks_delegate (sp : ScopedProvider (ConfigurationProvider B))
    (key token : String) (cb : ConfigurationChangeCallback D σ) (w : σ) :
    ScopedProvider.RegisterChangeCallback M sp key cb w =
        sp.ConfigurationProvider.RegisterChangeCallback M key cb w ∧
      ScopedProvider.UnregisterChangeCallback M sp token w =
        sp.ConfigurationProvider.UnregisterChangeCallback M token w ∧
      (NewScopedProvider sp.prefix_ sp.ConfigurationProvider).RegisterChangeCallback M key cb w =
        sp.ConfigurationProvider.RegisterChangeCallback M key cb w ∧
      (NewScopedProvider sp.prefix_ sp.ConfigurationProvider).UnregisterChangeCallback M token w =
        sp.ConfigurationProvider.UnregisterChangeCallback M token w := by
  cases sp
  refine ⟨?_, ?_, ?_, ?_⟩
  · rw [ScopedProvider.RegisterChangeCallback]
  · rw [ScopedProvider.UnregisterChangeCallback]
  · rw [NewScopedProvider, ConfigurationProvider.RegisterChangeCallback,
      ScopedProvider.RegisterChangeCallback]
  · rw [NewScopedProvider, ConfigurationProvider.UnregisterChangeCallback,
      ScopedProvider.UnregisterChangeCallback]

/-- C5: however many layers of `NewScopedProvider` or `Scope` lie between
`inner` and `outer`, `outer.Name()` is `inner.Name()`. -/
theorem C5_Name_of_chain (inner outer : ConfigurationProvider B) (w : σ)
    (h : BuiltOver inner outer) : outer.Name M w = inner.Name M w := by
  induction h with
  | base => rfl
  | viaNew p _ ih => rw [NewScopedProvider, scoped_Name]; exact ih
  | viaScope p _ ih =>
    rw [ScopedProvider.Scope, NewScopedProvider, scoped_Name]
    exact ih

theorem C5_Name_of_chain_witness :
    BuiltOver demoTable
        (ScopedProvider.Scope ⟨NewScopedProvider "db" demoTable, ""⟩ "creds") ∧
      (ScopedProvider.Scope ⟨NewScopedProvider "db" demoTable, ""⟩ "creds").Name demo 0 =
        demoTable.Name demo 0 :=
  ⟨.viaScope "creds" (.viaNew "" (.viaNew "db" .base)),
    C5_Name_of_chain demo demoTable _ 0 (.viaScope "creds" (.viaNew "" (.viaNew "db" .base)))⟩

/-! ## `Scope` -/

/-- C6: for a non-empty `q`, `sp.Scope(q).GetValue(k)` is
`sp.GetValue(q + "." + k)`, and `sp.Scope(q).Name()` is `sp.Name()`. -/
theorem C6_Scope_behaviour (sp : ScopedProvider (ConfigurationProvider B)) (q k : String)
    (w : σ) (hq : q ≠ "") :
    (sp.Scope q).GetValue M k w = ScopedProvider.GetValue M sp (q ++ "." ++ k) w ∧
      (sp.Scope q).Name M w = ScopedProvider.Name M sp w := by
  constructor
  · rw [ScopedProvider.Scope, NewScopedProvider_GetValue, scoped_GetValue, if_pos hq]
  · rw [ScopedProvider.Scope, NewScopedProvider, scoped_Name]
    show ConfigurationProvider.Name M (.scoped sp) w = _
    rw [ConfigurationProvider.Name]

theorem C6_Scope_behaviour_witness :
    "creds" ≠ "" ∧
      (ScopedProvider.Scope ⟨demoTable, "db"⟩ "creds").GetValue demo "user" 0 =
        ScopedProvider.GetValue demo ⟨demoTable, "db"⟩ ("creds" ++ "." ++ "user") 0 ∧
      (ScopedProvider.Scope ⟨demoTable, "db"⟩ "creds").Name demo 0 =
        ScopedProvider.Name demo ⟨demoTable, "db"⟩ 0 :=
  ⟨by decide, C6_Scope_behaviour demo ⟨demoTable, "db"⟩ "creds" "user" 0 (by decide)⟩

/-- C7: `sp.Scope(q)` is the `ScopedProvider` with prefix `q` whose delegate is
`sp` itself, that is `NewScopedProvider(q, sp)`; it is not a provider over the
delegate of `sp` under the joined prefix `p + "." + q`. -/
theorem C7_Scope_wraps_receiver (sp : ScopedProvider (ConfigurationProvider B))
    (q : String) :
    sp.Scope q = .scoped ⟨.scoped sp, q⟩ ∧
      sp.Scope q = NewScopedProvider q (.scoped sp) ∧
      sp.Scope q ≠ NewScopedProvider (sp.prefix_ ++ "." ++ q) sp.ConfigurationProvider := by
  refine ⟨rfl, rfl, ?_⟩
  intro h
  rw [ScopedProvider.Scope, NewScopedProvider, NewScopedProvider] at h
  injection h with h
  injection h with _ h
  have hlen := congrArg String.length h
  simp [String.length_append] at hlen
  exact absurd hlen.2 (by decide)

end

/-! ## `keyNotFound` -/

theorem appendEscapedRune_plain (wide : Char → Bool) (buf : String) (c : Char)
    (hc : IsPrint wide c = true ∧ c ≠ '"' ∧ c ≠ '\\') :
    appendEscapedRune wide buf c = buf.push c := by
  unfold appendEscapedRune
  simp [hc.1, hc.2.1, hc.2.2]

theorem foldl_appendEscapedRune_plain (wide : Char → Bool) (l : List Char) :
    ∀ buf : String, (∀ c ∈ l, IsPrint wide c = true ∧ c ≠ '"' ∧ c ≠ '\\') →
      l.foldl (appendEscapedRune wide) buf = buf ++ String.mk l := by
  induction l with
  | nil => intro buf _; apply String.ext; simp
  | cons c l ih =>
    intro buf h
    rw [List.foldl_cons, appendEscapedRune_plain wide buf c (h c (List.mem_cons_self c l)),
      ih _ (fun d hd => h d (List.mem_cons_of_mem c hd))]
    apply String.ext
    simp

theorem Quote_plain (wide : Char → Bool) (key : String)
    (h : ∀ c ∈ key.data, IsPrint wide c = true ∧ c ≠ '"' ∧ c ≠ '\\') :
    Quote wide key = "\"" ++ key ++ "\"" := by
  rw [Quote, foldl_appendEscapedRune_plain wide key.data _ h]
  apply String.ext
  simp

/-! ## UTF-8 in `%q`: encoding, decoding and the loop over a key -/

theorem lor_mul_add (k a b : Nat) (hb : b < 2 ^ k) : a * 2 ^ k ||| b = a * 2 ^ k + b := by
  rw [Nat.mul_comm, ← Nat.mul_add_lt_is_or hb]

theorem land_mask (x k : Nat) : x &&& (2 ^ k - 1) = x % 2 ^ k :=
  Nat.and_pow_two_sub_one_eq_mod x k

theorem cont_byte (x : Nat) : 0x80 ||| (x % 256 &&& 0x3F) = 0x80 + x % 64 := by
  have hm := land_mask (x % 256) 6
  norm_num at hm
  rw [hm]
  have := lor_mul_add 6 2 (x % 256 % 64) (by norm_num; omega)
  norm_num at this ⊢
  omega

theorem EncodeRune_one (r : Nat) (h : r ≤ 0x7F) : EncodeRune r = [r] := by
  unfold EncodeRune
  rw [if_pos h]
  congr 1
  omega

theorem EncodeRune_two (r : Nat) (h1 : 0x80 ≤ r) (h2 : r ≤ 0x7FF) :
    EncodeRune r = [0xC0 + r / 64, 0x80 + r % 64] := by
  have e1 : 0xC0 ||| (r >>> 6) % 256 = 0xC0 + r / 64 := by
    have := lor_mul_add 6 3 ((r >>> 6) % 256) (by rw [Nat.shiftRight_eq_div_pow]; omega)
    rw [Nat.shiftRight_eq_div_pow] at this ⊢
    norm_num at this ⊢
    omega
  unfold EncodeRune
  rw [if_neg (by omega), if_pos (by omega), e1, cont_byte]

theorem EncodeRune_three (r : Nat) (h1 : 0x800 ≤ r) (h2 : r ≤ 0xFFFF)
    (hs : r < 0xD800 ∨ 0xDFFF < r) :
    EncodeRune r = [0xE0 + r / 4096, 0x80 + r / 64 % 64, 0x80 + r % 64] := by
  have e1 : 0xE0 ||| (r >>> 12) % 256 = 0xE0 + r / 4096 := by
    have := lor_mul_add 4 14 ((r >>> 12) % 256) (by rw [Nat.shiftRight_eq_div_pow]; omega)
    rw [Nat.shiftRight_eq_div_pow] at this ⊢
    norm_num at this ⊢
    omega
  have e2 : (r >>> 6) % 64 = r / 64 % 64 := by rw [Nat.shiftRight_eq_div_pow]
  unfold EncodeRune
  rw [if_neg (by omega), if_neg (by omega), if_neg (by omega), if_pos (by omega), e1,
    cont_byte, cont_byte, e2]

theorem EncodeRune_four (r : Nat) (h1 : 0x10000 ≤ r) (h2 : r ≤ 0x10FFFF) :
    EncodeRune r =
      [0xF0 + r / 262144, 0x80 + r / 4096 % 64, 0x80 + r / 64 % 64, 0x80 + r % 64] := by
  have e1 : 0xF0 ||| (r >>> 18) % 256 = 0xF0 + r / 262144 := by
    have := lor_mul_add 3 30 ((r >>> 18) % 256) (by rw [Nat.shiftRight_eq_div_pow]; omega)
    rw [Nat.shiftRight_eq_div_pow] at this ⊢
    norm_num at this ⊢
    omega
  have e2 : (r >>> 6) % 64 = r / 64 % 64 := by rw [Nat.shiftRight_eq_div_pow]
  have e3 : (r >>> 12) % 64 = r / 4096 % 64 := by rw [Nat.shiftRight_eq_div_pow]
  unfold EncodeRune
  rw [if_neg (by omega), if_neg (by omega), if_neg (by omega), if_neg (by omega), e1,
    cont_byte, cont_byte, cont_byte, e2, e3]

theorem first_two (b : Nat) (h : 0xC2 ≤ b ∧ b ≤ 0xDF) : first b = 0x02 := by
  unfold first
  rw [if_neg (by omega), if_neg (by omega), if_pos (by omega)]

theorem Decode_two (s0 s1 : Nat) (t : List Nat) (h0 : 0xC2 ≤ s0 ∧ s0 ≤ 0xDF)
    (h1 : 0x80 ≤ s1 ∧ s1 ≤ 0xBF) :
    DecodeRuneInString (s0 :: s1 :: t) = (s0 % 32 * 64 + s1 % 64, 2) := by
  have hv : (s0 &&& 0x1F) <<< 6 ||| (s1 &&& 0x3F) = s0 % 32 * 64 + s1 % 64 := by
    have a := land_mask s0 5
    have b := land_mask s1 6
    norm_num at a b
    rw [a, b, Nat.shiftLeft_eq]
    have := lor_mul_add 6 (s0 % 32) (s1 % 64) (by norm_num; omega)
    norm_num at this ⊢
    exact this
  unfold DecodeRuneInString
  simp only [first_two s0 h0]
  have hsz : (2 : Nat) &&& 7 = 2 := by decide
  have hacc : acceptRanges (2 >>> 4) = (0x80, 0xBF) := by decide
  simp only [hsz, hacc, List.length_cons]
  rw [if_neg (by omega), if_neg (by omega), if_neg (by omega), if_pos (by omega), hv]

theorem first_three (b : Nat) (h : 0xE0 ≤ b ∧ b ≤ 0xEF) :
    first b = (if b = 0xE0 then 0x13 else if b = 0xED then 0x23 else 0x03) := by
  unfold first
  rw [if_neg (by omega), if_neg (by omega), if_neg (by omega)]
  by_cases h1 : b = 0xE0
  · rw [if_pos h1, if_pos h1]
  rw [if_neg h1, if_neg h1]
  by_cases h2 : b < 0xED
  · rw [if_pos h2, if_neg (by omega)]
  rw [if_neg h2]
  by_cases h3 : b = 0xED
  · rw [if_pos h3, if_pos h3]
  rw [if_neg h3, if_neg h3, if_pos (by omega)]

theorem Decode_three (s0 s1 s2 : Nat) (t : List Nat) (h0 : 0xE0 ≤ s0 ∧ s0 ≤ 0xEF)
    (h1 : 0x80 ≤ s1 ∧ s1 ≤ 0xBF) (h2 : 0x80 ≤ s2 ∧ s2 ≤ 0xBF)
    (hlo : s0 = 0xE0 → 0xA0 ≤ s1) (hhi : s0 = 0xED → s1 ≤ 0x9F) :
    DecodeRuneInString (s0 :: s1 :: s2 :: t) =
      (s0 % 16 * 4096 + s1 % 64 * 64 + s2 % 64, 3) := by
  have hv : (s0 &&& 0x0F) <<< 12 ||| (s1 &&& 0x3F) <<< 6 ||| (s2 &&& 0x3F) =
      s0 % 16 * 4096 + s1 % 64 * 64 + s2 % 64 := by
    have a := land_mask s0 4
    have b := land_mask s1 6
    have c := land_mask s2 6
    norm_num at a b c
    rw [a, b, c, Nat.shiftLeft_eq, Nat.shiftLeft_eq]
    have e1 := lor_mul_add 12 (s0 % 16) (s1 % 64 * 2 ^ 6) (by norm_num; omega)
    have e2 := lor_mul_add 6 (s0 % 16 * 64 + s1 % 64) (s2 % 64) (by norm_num; omega)
    norm_num at e1 e2 ⊢
    rw [e1]
    have e3 : s0 % 16 * 4096 + s1 % 64 * 64 = (s0 % 16 * 64 + s1 % 64) * 64 := by omega
    rw [e3, e2]
  unfold DecodeRuneInString
  simp only [first_three s0 h0, List.length_cons]
  by_cases c1 : s0 = 0xE0
  · have hsz : (0x13 : Nat) &&& 7 = 3 := by decide
    have hacc : acceptRanges (0x13 >>> 4) = (0xA0, 0xBF) := by decide
    simp only [if_pos c1, hsz, hacc]
    have := hlo c1
    rw [if_neg (by omega), if_neg (by omega), if_neg (by omega), if_neg (by omega),
      if_neg (by omega), if_pos (by omega), hv]
  by_cases c2 : s0 = 0xED
  · have hsz : (0x23 : Nat) &&& 7 = 3 := by decide
    have hacc : acceptRanges (0x23 >>> 4) = (0x80, 0x9F) := by decide
    simp only [if_neg c1, if_pos c2, hsz, hacc]
    have := hhi c2
    rw [if_neg (by omega), if_neg (by omega), if_neg (by omega), if_neg (by omega),
      if_neg (by omega), if_pos (by omega), hv]
  · have hsz : (0x03 : Nat) &&& 7 = 3 := by decide
    have hacc : acceptRanges (0x03 >>> 4) = (0x80, 0xBF) := by decide
    simp only [if_neg c1, if_neg c2, hsz, hacc]
    rw [if_neg (by omega), if_neg (by omega), if_neg (by omega), if_neg (by omega),
      if_neg (by omega), if_pos (by omega), hv]

theorem first_four (b : Nat) (h : 0xF0 ≤ b ∧ b ≤ 0xF4) :
    first b = (if b = 0xF0 then 0x34 else if b = 0xF4 then 0x44 else 0x04) := by
  unfold first
  rw [if_neg (by omega), if_neg (by omega), if_neg (by omega), if_neg (by omega),
    if_neg (by omega), if_neg (by omega), if_neg (by omega)]
  by_cases h1 : b = 0xF0
  · rw [if_pos h1, if_pos h1]
  rw [if_neg h1, if_neg h1]
  by_cases h2 : b < 0xF4
  · rw [if_pos h2, if_neg (by omega)]
  rw [if_neg h2, if_pos (by omega), if_pos (by omega)]

theorem Decode_four (s0 s1 s2 s3 : Nat) (t : List Nat) (h0 : 0xF0 ≤ s0 ∧ s0 ≤ 0xF4)
    (h1 : 0x80 ≤ s1 ∧ s1 ≤ 0xBF) (h2 : 0x80 ≤ s2 ∧ s2 ≤ 0xBF) (h3 : 0x80 ≤ s3 ∧ s3 ≤ 0xBF)
    (hlo : s0 = 0xF0 → 0x90 ≤ s1) (hhi : s0 = 0xF4 → s1 ≤ 0x8F) :
    DecodeRuneInString (s0 :: s1 :: s2 :: s3 :: t) =
      (s0 % 8 * 262144 + s1 % 64 * 4096 + s2 % 64 * 64 + s3 % 64, 4) := by
  have hv : (s0 &&& 0x07) <<< 18 ||| (s1 &&& 0x3F) <<< 12 ||| (s2 &&& 0x3F) <<< 6 |||
      (s3 &&& 0x3F) = s0 % 8 * 262144 + s1 % 64 * 4096 + s2 % 64 * 64 + s3 % 64 := by
    have a := land_mask s0 3
    have b := land_mask s1 6
    have c := land_mask s2 6
    have d := land_mask s3 6
    norm_num at a b c d
    rw [a, b, c, d, Nat.shiftLeft_eq, Nat.shiftLeft_eq, Nat.shiftLeft_eq]
    have e1 := lor_mul_add 18 (s0 % 8) (s1 % 64 * 2 ^ 12) (by norm_num; omega)
    have e2 := lor_mul_add 12 (s0 % 8 * 64 + s1 % 64) (s2 % 64 * 2 ^ 6) (by norm_num; omega)
    have e3 := lor_mul_add 6 ((s0 % 8 * 64 + s1 % 64) * 64 + s2 % 64) (s3 % 64)
      (by norm_num; omega)
    norm_num at e1 e2 e3 ⊢
    rw [e1]
    have f1 : s0 % 8 * 262144 + s1 % 64 * 4096 = (s0 % 8 * 64 + s1 % 64) * 4096 := by omega
    rw [f1, e2]
    have f2 : (s0 % 8 * 64 + s1 % 64) * 4096 + s2 % 64 * 64 =
        ((s0 % 8 * 64 + s1 % 64) * 64 + s2 % 64) * 64 := by omega
    rw [f2, e3]
  unfold DecodeRuneInString
  simp only [first_four s0 h0, List.length_cons]
  by_cases c1 : s0 = 0xF0
  · have hsz : (0x34 : Nat) &&& 7 = 4 := by decide
    have hacc : acceptRanges (0x34 >>> 4) = (0x90, 0xBF) := by decide
    simp only [if_pos c1, hsz, hacc]
    have := hlo c1
    rw [if_neg (by omega), if_neg (by omega), if_neg (by omega), if_neg (by omega),
      if_neg (by omega), if_neg (by omega), if_neg (by omega), hv]
  by_cases c2 : s0 = 0xF4
  · have hsz : (0x44 : Nat) &&& 7 = 4 := by decide
    have hacc : acceptRanges (0x44 >>> 4) = (0x80, 0x8F) := by decide
    simp only [if_neg c1, if_pos c2, hsz, hacc]
    have := hhi c2
    rw [if_neg (by omega), if_neg (by omega), if_neg (by omega), if_neg (by omega),
      if_neg (by omega), if_neg (by omega), if_neg (by omega), hv]
  · have hsz : (0x04 : Nat) &&& 7 = 4 := by decide
    have hacc : acceptRanges (0x04 >>> 4) = (0x80, 0xBF) := by decide
    simp only [if_neg c1, if_neg c2, hsz, hacc]
    rw [if_neg (by omega), if_neg (by omega), if_neg (by omega), if_neg (by omega),
      if_neg (by omega), if_neg (by omega), if_neg (by omega), hv]

theorem Char_toNat_valid (c : Char) :
    (c.toNat < 0xD800 ∨ 0xDFFF < c.toNat) ∧ c.toNat ≤ 0x10FFFF := by
  have h := c.valid
  simp only [UInt32.isValidChar, Nat.isValidChar] at h
  have e : c.toNat = c.val.toNat := rfl
  omega

theorem quoteLoop_skip (wide : Char → Bool) (b : Nat) (t : List Nat) (k : Nat)
    (buf : String) : quoteLoop wide (b :: t) (k + 1) buf = quoteLoop wide t k buf := by
  rw [quoteLoop]

theorem quoteLoop_rune (wide : Char → Bool) (s0 : Nat) (t : List Nat) (buf : String)
    (r w : Nat)
    (hd : (if 0x80 ≤ s0 then DecodeRuneInString (s0 :: t) else (s0, 1)) = (r, w))
    (hne : ¬ (w = 1 ∧ r = RuneError)) :
    quoteLoop wide (s0 :: t) 0 buf =
      quoteLoop wide t (w - 1) (appendEscapedRuneAt wide buf r) := by
  rw [quoteLoop]
  simp only [hd]
  rw [if_neg hne]

theorem appendEscapedRuneAt_toNat (wide : Char → Bool) (buf : String) (c : Char) :
    appendEscapedRuneAt wide buf c.toNat = appendEscapedRune wide buf c := by
  obtain ⟨hs, hmax⟩ := Char_toNat_valid c
  have hv : ValidRune c.toNat = true := by
    unfold ValidRune
    by_cases h : c.toNat < 0xD800
    · rw [if_pos h]
    · rw [if_neg h, if_pos (by omega)]
  rw [appendEscapedRuneAt, if_pos hv, Char.ofNat_toNat]

theorem quoteLoop_EncodeRune (wide : Char → Bool) (c : Char) (rest : List Nat) (buf : String) :
    quoteLoop wide (EncodeRune c.toNat ++ rest) 0 buf =
      quoteLoop wide rest 0 (appendEscapedRune wide buf c) := by
  obtain ⟨hs, hmax⟩ := Char_toNat_valid c
  have hc := appendEscapedRuneAt_toNat wide buf c
  generalize hr : c.toNat = r at hs hmax hc
  have hR : RuneError = 0xFFFD := rfl
  by_cases h1 : r ≤ 0x7F
  · rw [EncodeRune_one r h1, List.singleton_append,
      quoteLoop_rune wide r rest buf r 1 (by rw [if_neg (by omega)]) (by omega), hc]
  by_cases h2 : r ≤ 0x7FF
  · have hv : (0xC0 + r / 64) % 32 * 64 + (0x80 + r % 64) % 64 = r := by omega
    rw [EncodeRune_two r (by omega) h2]
    show quoteLoop wide ((0xC0 + r / 64) :: (0x80 + r % 64) :: rest) 0 buf = _
    rw [quoteLoop_rune wide _ _ buf r 2
      (by rw [if_pos (by omega), Decode_two _ _ rest (by omega) (by omega), hv]) (by omega),
      quoteLoop_skip, hc]
  by_cases h3 : r ≤ 0xFFFF
  · have hv : (0xE0 + r / 4096) % 16 * 4096 + (0x80 + r / 64 % 64) % 64 * 64 +
        (0x80 + r % 64) % 64 = r := by omega
    rw [EncodeRune_three r (by omega) h3 hs]
    show quoteLoop wide
      ((0xE0 + r / 4096) :: (0x80 + r / 64 % 64) :: (0x80 + r % 64) :: rest) 0 buf = _
    rw [quoteLoop_rune wide _ _ buf r 3
      (by rw [if_pos (by omega), Decode_three _ _ _ rest (by omega) (by omega) (by omega)
        (by omega) (by omega), hv]) (by omega),
      quoteLoop_skip, quoteLoop_skip, hc]
  · have hv : (0xF0 + r / 262144) % 8 * 262144 + (0x80 + r / 4096 % 64) % 64 * 4096 +
        (0x80 + r / 64 % 64) % 64 * 64 + (0x80 + r % 64) % 64 = r := by omega
    rw [EncodeRune_four r (by omega) hmax]
    show quoteLoop wide ((0xF0 + r / 262144) :: (0x80 + r / 4096 % 64) ::
      (0x80 + r / 64 % 64) :: (0x80 + r % 64) :: rest) 0 buf = _
    rw [quoteLoop_rune wide _ _ buf r 4
      (by rw [if_pos (by omega), Decode_four _ _ _ _ rest (by omega) (by omega) (by omega)
        (by omega) (by omega) (by omega), hv]) (by omega),
      quoteLoop_skip, quoteLoop_skip, quoteLoop_skip, hc]

theorem quoteLoop_utf8BytesOf (wide : Char → Bool) (cs : List Char) :
    ∀ buf : String, quoteLoop wide (utf8BytesOf cs) 0 buf =
      cs.foldl (appendEscapedRune wide) buf := by
  induction cs with
  | nil => intro buf; rfl
  | cons c cs ih =>
    intro buf
    rw [utf8BytesOf, quoteLoop_EncodeRune, ih, List.foldl_cons]

theorem appendQuotedWith_utf8Bytes (wide : Char → Bool) (s : String) :
    appendQuotedWith wide (utf8Bytes s) = Quote wide s := by
  rw [appendQuotedWith, utf8Bytes, quoteLoop_utf8BytesOf, Quote]

theorem utf8BytesOf_append (a b : List Char) :
    utf8BytesOf (a ++ b) = utf8BytesOf a ++ utf8BytesOf b := by
  induction a with
  | nil => rfl
  | cons c a ih => rw [List.cons_append, utf8BytesOf, utf8BytesOf, ih, List.append_assoc]

theorem utf8Bytes_append (a b : String) :
    utf8Bytes (a ++ b) = utf8Bytes a ++ utf8Bytes b := by
  rw [utf8Bytes, utf8Bytes, utf8Bytes, String.data_append, utf8BytesOf_append]

theorem keyNotFoundBytes_utf8Bytes (wide : Char → Bool) (s : String) :
    keyNotFoundBytes wide (utf8Bytes s) = keyNotFound wide s := by
  rw [keyNotFoundBytes, appendQuotedWith_utf8Bytes, keyNotFound]

/-- The key `a`, byte `0xFF`, `b` is not valid UTF-8; `%q` writes the byte as
an escape. -/
theorem keyNotFoundBytes_undecodable_byte :
    Option.map errorString.Error (keyNotFoundBytes demoWide [0x61, 0xFF, 0x62]) =
      some "couldn't find key \"a\\xffb\"" := by
  decide

/-- C8, as stated, fails on a key that holds a double quote: the verb `%q`
writes the quote with a backslash in front, so the message is not the key
between two quotes, neither as text nor byte for byte. -/
theorem C8_counterexample :
    Option.map errorString.Error (keyNotFound demoWide "say \"hi\"") =
        some "couldn't find key \"say \\\"hi\\\"\"" ∧
      ¬ (Option.map errorString.Error (keyNotFound demoWide "say \"hi\"") =
        some ("couldn't find key \"" ++ "say \"hi\"" ++ "\"")) ∧
      Option.map errorString.Error (keyNotFoundBytes demoWide (utf8Bytes "say \"hi\"")) =
        some "couldn't find key \"say \\\"hi\\\"\"" ∧
      ¬ (Option.map (fun e => utf8Bytes e.Error)
          (keyNotFoundBytes demoWide (utf8Bytes "say \"hi\"")) =
        some (utf8Bytes "couldn't find key \"" ++ utf8Bytes "say \"hi\"" ++
          utf8Bytes "\"")) := by
  refine ⟨rfl, by decide, by decide, by decide⟩

/-- C8 (amended): for every key, whatever its bytes, `keyNotFound(key)` is not
nil and its message is `couldn't find key ` followed by the key as `%q` writes
it (`strconv.Quote`); when the key is valid UTF-8, every rune of it is
printable and none is a double quote or a backslash, that message is the key
itself between two double quotes, byte for byte. -/
theorem C8_keyNotFound_message (wide : Char → Bool) (key : List Nat) (s : String) :
    keyNotFoundBytes wide key ≠ none ∧
      Option.map errorString.Error (keyNotFoundBytes wide key) =
        some ("couldn't find key " ++ appendQuotedWith wide key) ∧
      ((∀ c ∈ s.data, IsPrint wide c = true ∧ c ≠ '"' ∧ c ≠ '\\') →
        Option.map errorString.Error (keyNotFoundBytes wide (utf8Bytes s)) =
            some ("couldn't find key \"" ++ s ++ "\"") ∧
          Option.map (fun e => utf8Bytes e.Error) (keyNotFoundBytes wide (utf8Bytes s)) =
            some (utf8Bytes "couldn't find key \"" ++ utf8Bytes s ++ utf8Bytes "\"")) := by
  refine ⟨by simp [keyNotFoundBytes], rfl, fun h => ?_⟩
  have hmsg : Option.map errorString.Error (keyNotFoundBytes wide (utf8Bytes s)) =
      some ("couldn't find key \"" ++ s ++ "\"") := by
    rw [keyNotFoundBytes, appendQuotedWith_utf8Bytes, Quote_plain wide s h]
    simp only [Option.map_some', errorString.Error]
    congr 1
  refine ⟨hmsg, ?_⟩
  have hbytes : Option.map (fun e => utf8Bytes e.Error)
      (keyNotFoundBytes wide (utf8Bytes s)) =
      Option.map utf8Bytes
        (Option.map errorString.Error (keyNotFoundBytes wide (utf8Bytes s))) := by
    rw [Option.map_map]
    rfl
  rw [hbytes, hmsg, Option.map_some', utf8Bytes_append, utf8Bytes_append]

theorem C8_keyNotFound_message_witness :
    (∀ c ∈ "café.user".data, IsPrint demoWide c = true ∧ c ≠ '"' ∧ c ≠ '\\') ∧
      utf8Bytes "café.user" = [0x63, 0x61, 0x66, 0xC3, 0xA9, 0x2E, 0x75, 0x73, 0x65, 0x72] ∧
      Option.map errorString.Error (keyNotFoundBytes demoWide (utf8Bytes "café.user")) =
        some ("couldn't find key \"" ++ "café.user" ++ "\"") ∧
      Option.map (fun e => utf8Bytes e.Error)
          (keyNotFoundBytes demoWide (utf8Bytes "café.user")) =
        some (utf8Bytes "couldn't find key \"" ++ utf8Bytes "café.user" ++ utf8Bytes "\"") :=
  ⟨by decide, by decide,
    (C8_keyNotFound_message demoWide [] "café.user").2.2 (by decide)⟩

/-! ## Length of a quoted key -/

theorem lowerhex_hexDigits_length (r n : Nat) : (hexDigits r n).length = n := by
  induction n with
  | zero => rfl
  | succ n ih => simp [hexDigits, ih]

theorem escaped_push (buf : String) (a : Char) :
    buf.push a = buf ++ ("" : String).push a ∧ 0 < (("" : String).push a).length :=
  ⟨String.ext (by simp), by simp⟩

theorem escaped_push_push (buf : String) (a b : Char) :
    (buf.push a).push b = buf ++ (("" : String).push a).push b ∧
      0 < ((("" : String).push a).push b).length :=
  ⟨String.ext (by simp), by simp⟩

theorem escaped_append (buf e : String) (he : 0 < e.length) :
    buf ++ e = buf ++ ("" ++ e) ∧ 0 < ("" ++ e).length := by
  have h : ("" : String) ++ e = e := String.ext (by simp)
  rw [h]
  exact ⟨rfl, he⟩

theorem escaped_append_append (buf e f : String) (he : 0 < e.length) :
    buf ++ e ++ f = buf ++ ("" ++ e ++ f) ∧ 0 < ("" ++ e ++ f).length := by
  have h : ("" : String) ++ e = e := String.ext (by simp)
  rw [h, String.append_assoc]
  refine ⟨rfl, ?_⟩
  rw [String.length_append]
  omega

theorem appendEscapedRune_length (wide : Char → Bool) (buf : String) (r : Char) :
    appendEscapedRune wide buf r = buf ++ appendEscapedRune wide "" r ∧
      0 < (appendEscapedRune wide "" r).length := by
  unfold appendEscapedRune
  by_cases h1 : r = '"' ∨ r = '\\'
  · simp only [if_pos h1]; exact escaped_push_push buf _ _
  simp only [if_neg h1]
  by_cases h2 : IsPrint wide r = true
  · simp only [if_pos h2]; exact escaped_push buf _
  simp only [if_neg h2]
  by_cases h3 : r.toNat = 7
  · simp only [if_pos h3]; exact escaped_append buf _ (by decide)
  simp only [if_neg h3]
  by_cases h4 : r.toNat = 8
  · simp only [if_pos h4]; exact escaped_append buf _ (by decide)
  simp only [if_neg h4]
  by_cases h5 : r.toNat = 12
  · simp only [if_pos h5]; exact escaped_append buf _ (by decide)
  simp only [if_neg h5]
  by_cases h6 : r = '\n'
  · simp only [if_pos h6]; exact escaped_append buf _ (by decide)
  simp only [if_neg h6]
  by_cases h7 : r = '\r'
  · simp only [if_pos h7]; exact escaped_append buf _ (by decide)
  simp only [if_neg h7]
  by_cases h8 : r = '\t'
  · simp only [if_pos h8]; exact escaped_append buf _ (by decide)
  simp only [if_neg h8]
  by_cases h9 : r.toNat = 11
  · simp only [if_pos h9]; exact escaped_append buf _ (by decide)
  simp only [if_neg h9]
  by_cases h10 : r.toNat < 0x20 ∨ r.toNat = 0x7F
  · simp only [if_pos h10]; exact escaped_append_append buf _ _ (by decide)
  simp only [if_neg h10]
  by_cases h11 : (!ValidRune r.toNat) = true
  · simp only [if_pos h11]; exact escaped_append_append buf _ _ (by decide)
  simp only [if_neg h11]
  by_cases h12 : r.toNat < 0x10000
  · simp only [if_pos h12]; exact escaped_append_append buf _ _ (by decide)
  simp only [if_neg h12]
  exact escaped_append_append buf _ _ (by decide)

theorem foldl_appendEscapedRune_length (wide : Char → Bool) (l : List Char) :
    ∀ buf : String, (l.foldl (appendEscapedRune wide) buf).length =
      buf.length + (l.foldl (appendEscapedRune wide) "").length := by
  induction l with
  | nil => intro buf; simp
  | cons c l ih =>
    intro buf
    rw [List.foldl_cons, List.foldl_cons, ih (appendEscapedRune wide buf c),
      ih (appendEscapedRune wide "" c), (appendEscapedRune_length wide buf c).1,
      String.length_append]
    omega

theorem Quote_length_lt (wide : Char → Bool) (p k : String) :
    (Quote wide k).length < (Quote wide (p ++ "." ++ k)).length := by
  have hdot := (appendEscapedRune_length wide
    (p.data.foldl (appendEscapedRune wide) "\"") '.').2
  have h1 := foldl_appendEscapedRune_length wide k.data
    (appendEscapedRune wide (p.data.foldl (appendEscapedRune wide) "\"") '.')
  have h2 := congrArg String.length (appendEscapedRune_length wide
    (p.data.foldl (appendEscapedRune wide) "\"") '.').1
  have h3 := foldl_appendEscapedRune_length wide p.data "\""
  have h4 := foldl_appendEscapedRune_length wide k.data "\""
  have h5 : ("\"" : String).length = 1 := rfl
  rw [String.length_append] at h2
  simp only [Quote, String.data_append, List.foldl_append, String.length_push]
  rw [List.foldl_cons, List.foldl_nil, h1, h2, h3, h4, h5]
  omega

theorem keyNotFound_scoped_ne (wide : Char → Bool) (p k : String) :
    keyNotFound wide (p ++ "." ++ k) ≠ keyNotFound wide k := by
  intro h
  have hq : Quote wide (p ++ "." ++ k) = Quote wide k := by
    simp only [keyNotFound, Option.some.injEq, errorString.mk.injEq] at h
    have hd := congrArg String.data h
    simp only [String.data_append, List.append_cancel_left_eq] at hd
    exact String.ext hd
  have hlt := Quote_length_lt wide p k
  rw [hq] at hlt
  exact Nat.lt_irrefl _ hlt

/-! ## Errors of the backend -/

section
variable {B σ V D : Type} (M : Backend B σ V D)

/-- C9: let the wrapped provider report every absent key `j` by a value whose
error is `keyNotFound(j)`.  For a non-empty prefix `p` and a key `k` with
`p + "." + k` absent, the scoped lookup of `k` returns exactly what the
wrapped provider returns for `p + "." + k`; the error of that value is
`keyNotFound(p + "." + k)`, which is not `keyNotFound(k)`. -/
theorem C9_miss_passes_through (wide : Char → Bool) (errOf : V → error)
    (absent : String → σ → Prop) (inner : ConfigurationProvider B) (p k : String) (w : σ)
    (hp : p ≠ "")
    (hback : ∀ j u, absent j u →
      ∃ v u', inner.GetValue M j u = some (v, u') ∧ errOf v = keyNotFound wide j)
    (habs : absent (p ++ "." ++ k) w) :
    (NewScopedProvider p inner).GetValue M k w = inner.GetValue M (p ++ "." ++ k) w ∧
      ∃ v w', (NewScopedProvider p inner).GetValue M k w = some (v, w') ∧
        errOf v = keyNotFound wide (p ++ "." ++ k) ∧ errOf v ≠ keyNotFound wide k := by
  have hget : (NewScopedProvider p inner).GetValue M k w =
      inner.GetValue M (p ++ "." ++ k) w := by
    rw [NewScopedProvider_GetValue, if_pos hp]
  obtain ⟨v, w', hv, he⟩ := hback _ _ habs
  refine ⟨hget, v, w', hget.trans hv, he, ?_⟩
  rw [he]
  exact keyNotFound_scoped_ne wide p k

theorem C9_miss_passes_through_witness :
    "db" ≠ "" ∧
      (NewScopedProvider "db" demoTable).GetValue demo "port" 0 =
        demoTable.GetValue demo ("db" ++ "." ++ "port") 0 ∧
      ∃ v w', (NewScopedProvider "db" demoTable).GetValue demo "port" 0 = some (v, w') ∧
        v.err = keyNotFound demoWide ("db" ++ "." ++ "port") ∧
        v.err ≠ keyNotFound demoWide "port" :=
  ⟨by decide,
    C9_miss_passes_through demo demoWide DemoValue.err
      (fun j _ => List.lookup j
        [("db.creds.user", "alice"), ("creds.user", "carol"), ("user", "bob")] = none)
      demoTable "db" "port" 0 (by decide)
      (fun j u hj => ⟨⟨"", keyNotFound demoWide j⟩, u + 1, by
        simp only [demoTable, ConfigurationProvider.GetValue, demo, hj], rfl⟩)
      (by decide)⟩

end

/-! ## Construction and the receiver across calls -/

section
variable {B σ V D : Type} (M : Backend B σ V D)

/-- The results of `ScopedProvider.call` are those of the methods. -/
theorem call_result (sp : ScopedProvider (ConfigurationProvider B)) (key : String)
    (cb : ConfigurationChangeCallback D σ) (w : σ) :
    (ScopedProvider.call M sp (.GetValue key) w).map (fun out => (out.1, out.2.2)) =
        (ScopedProvider.GetValue M sp key w).map (fun r => (Ret.value r.1, r.2)) ∧
      (ScopedProvider.call M sp (.Scope key) w).map (fun out => (out.1, out.2.2)) =
        some (Ret.provider (sp.Scope key), w) ∧
      (ScopedProvider.call M sp .Name w).map (fun out => (out.1, out.2.2)) =
        (ScopedProvider.Name M sp w).map (fun r => (Ret.name r.1, r.2)) ∧
      (ScopedProvider.call M sp (.RegisterChangeCallback key cb) w).map
          (fun out => (out.1, out.2.2)) =
        (ScopedProvider.RegisterChangeCallback M sp key cb w).map
          (fun r => (Ret.token r.1, r.2)) ∧
      (ScopedProvider.call M sp (.UnregisterChangeCallback key) w).map
          (fun out => (out.1, out.2.2)) =
        (ScopedProvider.UnregisterChangeCallback M sp key w).map
          (fun r => (Ret.removed r.1, r.2)) := by
  cases sp
  refine ⟨?_, ?_, ?_, ?_, ?_⟩
  · rw [ScopedProvider.GetValue, ScopedProvider.call]
    simp [Option.map_map, Function.comp_def]
  · rfl
  · rw [ScopedProvider.Name, ScopedProvider.call]
    simp [Option.map_map, Function.comp_def]
  · rw [ScopedProvider.RegisterChangeCallback, ScopedProvider.call]
    simp [Option.map_map, Function.comp_def]
  · rw [ScopedProvider.UnregisterChangeCallback, ScopedProvider.call]
    simp [Option.map_map, Function.comp_def]

/-- C10: `NewScopedProvider(prefix, provider)` is, for every prefix and every
provider (nil included), the `ScopedProvider` holding exactly that provider
and that prefix; and a call of any of the five methods that returns leaves
the receiver with the prefix and the delegate it had. -/
theorem C10_construction_and_immutability (prefix_ : String)
    (provider : ConfigurationProvider B)
    (sp : ScopedProvider (ConfigurationProvider B)) (m : Method D σ) (w : σ) :
    (∃ made : ScopedProvider (ConfigurationProvider B),
        NewScopedProvider prefix_ provider = .scoped made ∧
          made.prefix_ = prefix_ ∧ made.ConfigurationProvider = provider) ∧
      ∀ (r : Ret B V) (sp' : ScopedProvider (ConfigurationProvider B)) (w' : σ),
        ScopedProvider.call M sp m w = some (r, sp', w') →
          sp'.prefix_ = sp.prefix_ ∧
            sp'.ConfigurationProvider = sp.ConfigurationProvider := by
  refine ⟨⟨⟨provider, prefix_⟩, rfl, rfl, rfl⟩, ?_⟩
  intro r sp' w' hcall
  have hsp : sp' = sp := by
    cases m <;> simp only [ScopedProvider.call, Option.map_eq_some', Option.some.injEq,
      Prod.mk.injEq] at hcall
    · obtain ⟨_, _, _, h, _⟩ := hcall; exact h.symm
    · exact hcall.2.1.symm
    · obtain ⟨_, _, _, h, _⟩ := hcall; exact h.symm
    · obtain ⟨_, _, _, h, _⟩ := hcall; exact h.symm
    · obtain ⟨_, _, _, h, _⟩ := hcall; exact h.symm
  rw [hsp]
  exact ⟨rfl, rfl⟩

theorem C10_construction_and_immutability_witness :
    ScopedProvider.call demo ⟨demoTable, "db"⟩ (.GetValue "creds.user") 0 =
        some (.value ⟨"alice", none⟩, ⟨demoTable, "db"⟩, 1) ∧
      (⟨demoTable, "db"⟩ : ScopedProvider _).prefix_ = "db" ∧
      (⟨demoTable, "db"⟩ : ScopedProvider _).ConfigurationProvider = demoTable :=
  ⟨rfl, (C10_construction_and_immutability demo "" .nil ⟨demoTable, "db"⟩
    (.GetValue "creds.user") 0).2 (.value ⟨"alice", none⟩) ⟨demoTable, "db"⟩ 1 rfl⟩

end

/-! ## Calls received by the wrapped provider -/

section
variable {B V D : Type} (A : Answers B V)

/-- C11: over a backend `b` that logs the calls it receives, one call of
`NewScopedProvider(p, b).GetValue(k)` returns with the log extended by exactly
one entry, the `GetValue` call with key `p + "." + k` when `p` is not empty and
`k` when it is; no `Name`, `Scope`, `RegisterChangeCallback` or
`UnregisterChangeCallback` entry is added. -/
theorem C11_GetValue_logs_one_call (b : B) (p k : String) (log : List (Received B)) :
    ∃ v : V,
      ConfigurationProvider.GetValue (D := D) (recorder A)
          (NewScopedProvider p (.concrete b)) k log =
        some (v, log ++ [Received.GetValue b (if p ≠ "" then p ++ "." ++ k else k)]) ∧
      (p ≠ "" →
        ConfigurationProvider.GetValue (D := D) (recorder A)
            (NewScopedProvider p (.concrete b)) k log =
          some (v, log ++ [Received.GetValue b (p ++ "." ++ k)])) ∧
      (p = "" →
        ConfigurationProvider.GetValue (D := D) (recorder A)
            (NewScopedProvider p (.concrete b)) k log =
          some (v, log ++ [Received.GetValue b k])) := by
  have hrun : ConfigurationProvider.GetValue (D := D) (recorder A)
      (NewScopedProvider p (.concrete b)) k log =
      some (A.GetValue b (if p ≠ "" then p ++ "." ++ k else k) log,
        log ++ [Received.GetValue b (if p ≠ "" then p ++ "." ++ k else k)]) := by
    rw [NewScopedProvider_GetValue, ConfigurationProvider.GetValue]
    rfl
  refine ⟨_, hrun, fun hp => ?_, fun hp => ?_⟩
  · rw [hrun, if_pos hp]
  · rw [hrun, if_neg (not_not.mpr hp)]

theorem C11_GetValue_logs_one_call_witness :
    "db" ≠ "" ∧
      ∃ v : String,
        ConfigurationProvider.GetValue (D := Unit) (recorder demoAnswers)
            (NewScopedProvider "db" (.concrete ())) "port" [Received.Name ()] =
          some (v, [Received.Name (), Received.GetValue () "db.port"]) :=
  ⟨by decide,
    match C11_GetValue_logs_one_call (D := Unit) demoAnswers () "db" "port"
        [Received.Name ()] with
    | ⟨v, _, h, _⟩ => ⟨v, h (by decide)⟩⟩

/-- C12: `sp.Scope(q)` and `NewScopedProvider(q, provider)` make no call.  In
any world the dispatch of `Scope` on a `ScopedProvider` returns
`NewScopedProvider(q, sp)` and the world untouched; over a wrapped backend
that logs its calls the log after `Scope` and after `NewScopedProvider` is the
log before, so neither the backend's own `Scope` nor its `GetValue` ran. -/
theorem C12_Scope_makes_no_call {σ : Type} (M : Backend B σ V D)
    (sp : ScopedProvider (ConfigurationProvider B)) (q : String) (w : σ)
    (provider : ConfigurationProvider B) (log : List (Received B)) :
    ConfigurationProvider.Scope M (.scoped sp) q w =
        some (NewScopedProvider q (.scoped sp), w) ∧
      ConfigurationProvider.Scope (V := V) (D := D) (recorder A) (.scoped sp) q log =
        some (sp.Scope q, log) ∧
      ScopedProvider.call (V := V) (D := D) (recorder A) sp (.Scope q) log =
        some (.provider (sp.Scope q), sp, log) ∧
      NewScopedProvider.call q provider log = some (NewScopedProvider q provider, log) :=
  ⟨rfl, rfl, rfl, rfl⟩

end

/-! ## Dotted prefixes and chains of scopes -/

section
variable {B σ V D : Type} (M : Backend B σ V D)

/-- C13: for non-empty `a` and `b`, one scope with the dotted prefix
`a + "." + b` and the scope `b` over the scope `a` answer every lookup alike. -/
theorem C13_dotted_prefix_eq_nested (a b k : String) (inner : ConfigurationProvider B)
    (w : σ) (ha : a ≠ "") (hb : b ≠ "") :
    (NewScopedProvider (a ++ "." ++ b) inner).GetValue M k w =
      (NewScopedProvider b (NewScopedProvider a inner)).GetValue M k w := by
  have hab : a ++ "." ++ b ≠ "" := by
    intro h
    have hlen := congrArg String.length h
    simp [String.length_append] at hlen
    exact absurd hlen.1.2 (by decide)
  rw [NewScopedProvider_GetValue, NewScopedProvider_GetValue, NewScopedProvider_GetValue,
    if_pos hab, if_pos ha, if_pos hb]
  simp only [String.append_assoc]

theorem C13_dotted_prefix_eq_nested_witness :
    "db" ≠ "" ∧ "creds" ≠ "" ∧
      (NewScopedProvider ("db" ++ "." ++ "creds") demoTable).GetValue demo "user" 0 =
        (NewScopedProvider "creds" (NewScopedProvider "db" demoTable)).GetValue demo "user" 0 :=
  ⟨by decide, by decide,
    C13_dotted_prefix_eq_nested demo "db" "creds" "user" demoTable 0 (by decide) (by decide)⟩

theorem resolvedKey_cons (p : String) (ps : List String) (k : String) :
    resolvedKey (p :: ps) k =
      if p ≠ "" then p ++ "." ++ resolvedKey ps k else resolvedKey ps k := by
  by_cases hp : p = ""
  · simp [resolvedKey, hp]
  · simp [resolvedKey, hp]

theorem resolvedKey_replicate_empty (n : Nat) (k : String) :
    resolvedKey (List.replicate n "") k = k := by
  induction n with
  | zero => rfl
  | succ n ih => rw [List.replicate_succ, resolvedKey_cons, if_neg (by simp), ih]

theorem scopeAll_GetValue (ps : List String) :
    ∀ (inner : ConfigurationProvider B) (k : String) (w : σ),
      (scopeAll inner ps).GetValue M k w = inner.GetValue M (resolvedKey ps k) w := by
  induction ps with
  | nil => intro inner k w; rfl
  | cons p ps ih =>
    intro inner k w
    have hstep : scopeAll inner (p :: ps) = scopeAll (NewScopedProvider p inner) ps := rfl
    rw [hstep, ih, NewScopedProvider_GetValue, resolvedKey_cons]

/-- C14: for scopes `p1, ..., pn` put on `inner` in that order (`p1` innermost,
any of them possibly empty), `GetValue(k)` on the outermost provider is
`inner.GetValue` at the non-empty prefixes in order, each followed by one dot,
then `k`; with every prefix empty that key is `k`. -/
theorem C14_general_nesting (ps : List String) (inner : ConfigurationProvider B)
    (k : String) (w : σ) (n : Nat) :
    (scopeAll inner ps).GetValue M k w = inner.GetValue M (resolvedKey ps k) w ∧
      (scopeAll inner (List.replicate n "")).GetValue M k w = inner.GetValue M k w := by
  refine ⟨scopeAll_GetValue M ps inner k w, ?_⟩
  rw [scopeAll_GetValue, resolvedKey_replicate_empty]

end

end config
